import Mathlib

/-!
# Verification of the Dynasty Draft tool (`app.py`)

A shallow embedding of the core logic of `app.py`:

* the identity reconciler `match_players_to_sleeper`,
* the draft-refresh caller behaviour,
* the ranking store (`load_rankings_local` / `save_rankings_local` /
  `load_rankings_from_github`),
* the per-user ranking-list mutations of the "My Rankings" tab, and
* the "Team Consensus" aggregator,

together with theorems about these definitions.

Python strings are modelled as Lean `String`; `str.strip`, `str.lower` and
`str.replace` are re-implemented below (structurally recursive, so that all
definitions evaluate inside the kernel).  Python `dict`s are modelled as
association lists in insertion order, Python `list`s as Lean `List`s.
-/

/-! ## Python string primitives -/

/-- Characters removed by Python `str.strip()` (ASCII whitespace). -/
def pyIsSpace (c : Char) : Bool :=
  c.toNat = 32 || c.toNat = 9 || c.toNat = 10 || c.toNat = 13 || c.toNat = 11 || c.toNat = 12

/-- Python `s.strip()`: drop leading and trailing whitespace. -/
def pyStrip (s : String) : String :=
  ⟨((s.data.dropWhile pyIsSpace).reverse.dropWhile pyIsSpace).reverse⟩

/-- Python `s.lower()` (the names involved are ASCII, where
`Char.toLower` agrees with Python). -/
def pyLower (s : String) : String := ⟨s.data.map Char.toLower⟩

/-- One pass of Python `str.replace`: replace every non-overlapping
occurrence of `pat`, scanning left to right.  The `Nat` argument is fuel;
each step consumes at least one character, so `l.length` fuel is enough. -/
def replaceFuel (pat repl : List Char) : Nat → List Char → List Char
  | 0, l => l
  | _ + 1, [] => []
  | n + 1, c :: cs =>
    if pat ≠ [] ∧ (c :: cs).take pat.length = pat then
      repl ++ replaceFuel pat repl n ((c :: cs).drop pat.length)
    else
      c :: replaceFuel pat repl n cs

/-- Python `s.replace(pat, repl)`. -/
def pyReplace (s pat repl : String) : String :=
  ⟨replaceFuel pat.data repl.data s.data.length s.data⟩

/-! ## Data model

One row of the FantasyPros CSV (`RankedPlayer`).  The CSV cell values other
than the player name are only ever displayed, never computed with, so they
are modelled as opaque strings.  `drafted` and `sleeper_id` are the two
derived columns added by `match_players_to_sleeper` (`externalId` of the
spec is `sleeper_id`). -/

structure Row where
  rk : String
  tiers : String
  player_name : String
  team : String
  pos : String
  age : String
  best : String
  worst : String
  avg : String
  stddev : String
  ecr_vs_adp : String
  drafted : Bool
  sleeper_id : Option String
deriving DecidableEq, Repr

/-- One record of the Sleeper player directory (`DirectoryEntry`); only the
fields read by the reconciler are modelled (`.get(..., '')` defaults make
them plain strings). -/
structure SleeperPlayer where
  first_name : String
  last_name : String
deriving DecidableEq, Repr

/-- The Sleeper directory: `sleeper_players.items()` in iteration order.
A `none` value models a falsy record, skipped by `if sleeper_player:`. -/
abbrev Directory := List (String × Option SleeperPlayer)

/-! ## Identity reconciler (`match_players_to_sleeper`) -/

/-- `manual_drafted_players` from `app.py`. -/
def manual_drafted_players : List String := ["Josh Allen"]

/-- `name_mappings` from `app.py`. -/
def name_mappings : List (String × List String) :=
  [("Josh Allen", ["Josh Allen"]),
   ("Patrick Mahomes II", ["Patrick Mahomes", "Patrick Mahomes II"]),
   ("Brian Thomas Jr.", ["Brian Thomas Jr.", "Brian Thomas"]),
   ("Marvin Harrison Jr.", ["Marvin Harrison Jr.", "Marvin Harrison"])]

/-- `if player_name in name_mappings: name_mappings[player_name]`. -/
def aliasesOf (pn : String) : Option (List String) :=
  (name_mappings.find? (fun p => p.1 = pn)).map Prod.snd

/-- `f"{first_name} {last_name}".strip()`. -/
def sleeperFullName (sp : SleeperPlayer) : String :=
  pyStrip (sp.first_name ++ " " ++ sp.last_name)

/-- `.replace(' Jr.', '').replace(' II', '').replace(' III', '').strip().lower()`. -/
def stripSuffixes (s : String) : String :=
  pyLower (pyStrip (pyReplace (pyReplace (pyReplace s " Jr." "") " II" "") " III" ""))

/-- The three in-loop tests of `match_players_to_sleeper` applied to a single
directory record, in source order: exact case-insensitive full-name match,
alias-table match, suffix-normalised match.  All three assign the same
`sleeper_id`/`drafted` values, so only the disjunction is observable. -/
def entryMatch (pn : String) (sp : SleeperPlayer) : Bool :=
  let full := sleeperFullName sp
  if pyLower pn = pyLower full then true
  else if (match aliasesOf pn with
           | some alts => alts.any (fun alt => pyLower alt = pyLower full)
           | none => false) then true
  else stripSuffixes pn = stripSuffixes full

/-- A directory item as tested inside the loop: falsy records never match. -/
def entryOptMatch (pn : String) (e : String × Option SleeperPlayer) : Bool :=
  match e.2 with
  | none => false
  | some sp => entryMatch pn sp

/-- The `for sleeper_id, sleeper_player in sleeper_players.items():` loop:
the first directory record satisfying any of the three tests wins
(`break`), and its key is recorded. -/
def findSleeperMatch (pn : String) : Directory → Option String
  | [] => none
  | e :: rest => if entryOptMatch pn e then some e.1 else findSleeperMatch pn rest

/-- The body of the `for idx, row in df.iterrows():` loop for one row:
override list first (`continue`), then the directory scan; an unmatched row
keeps the freshly initialised `drafted = False`, `sleeper_id = None`. -/
def matchRow (sleeper_players : Directory) (drafted_player_ids : List String)
    (r : Row) : Row :=
  let pn := pyStrip r.player_name
  if pn ∈ manual_drafted_players then
    { r with drafted := true, sleeper_id := some "manual_override" }
  else
    match findSleeperMatch pn sleeper_players with
    | some sid =>
        { r with drafted := drafted_player_ids.contains sid, sleeper_id := some sid }
    | none => { r with drafted := false, sleeper_id := none }

/-- `match_players_to_sleeper(df, sleeper_players, drafted_player_ids)`:
works on a copy of `df`, resets the `drafted`/`sleeper_id` columns and fills
them row by row.  Rows are independent, so the loop is a `map`. -/
def match_players_to_sleeper (df : List Row) (sleeper_players : Directory)
    (drafted_player_ids : List String) : List Row :=
  df.map (matchRow sleeper_players drafted_player_ids)

/-- The matching algorithm as the specification describes it: the four tiers
applied in strict priority order, each of tiers 2–4 scanning the whole
directory before the next tier is tried.  (This definition follows the
spec's words, to be compared with `match_players_to_sleeper`, which is
translated from the source.) -/
def specTieredMatch (pn : String) (dir : Directory) : Option String :=
  if pn ∈ manual_drafted_players then some "manual_override"
  else
    match dir.find? (fun e =>
        match e.2 with
        | some sp => pyLower pn = pyLower (sleeperFullName sp)
        | none => false) with
    | some e => some e.1
    | none =>
      match dir.find? (fun e =>
          match e.2 with
          | some sp =>
              (match aliasesOf pn with
               | some alts => alts.any (fun alt => pyLower alt = pyLower (sleeperFullName sp))
               | none => false)
          | none => false) with
      | some e => some e.1
      | none =>
        (dir.find? (fun e =>
            match e.2 with
            | some sp => stripSuffixes pn = stripSuffixes (sleeperFullName sp)
            | none => false)).map Prod.fst

/-! ## Draft refresh (the "🔄 Refresh Draft Data" handler) -/

/-- `load_sleeper_players()`: a failed request is caught and an empty
directory `{}` is returned.  `none` models the failure case. -/
def load_sleeper_players (resp : Option Directory) : Directory :=
  match resp with
  | some d => d
  | none => []

/-- `get_draft_picks()`: a failed request is caught and `[]` is returned.
Each pick carries `pick['player_id']` (`none`/`""` are falsy). -/
def get_draft_picks (resp : Option (List (Option String))) : List (Option String) :=
  match resp with
  | some picks => picks
  | none => []

/-- `{pick['player_id'] for pick in picks if pick['player_id']}`. -/
def draftedIdsOf (picks : List (Option String)) : List String :=
  picks.filterMap (fun pid =>
    match pid with
    | some s => if s = "" then none else some s
    | none => none)

/-- The refresh handler: it loads the directory and the picks (empty on
failure) and, whenever player data is present, unconditionally re-runs
`match_players_to_sleeper` on it. -/
def refreshDraftData (players_data : Option (List Row))
    (dirResp : Option Directory) (picksResp : Option (List (Option String))) :
    Option (List Row) :=
  let sleeper_players := load_sleeper_players dirResp
  let drafted := draftedIdsOf (get_draft_picks picksResp)
  match players_data with
  | some df => some (match_players_to_sleeper df sleeper_players drafted)
  | none => none

/-! ## Ranking store

The persisted document is `{userKey: [orderedPlayerNames]}`; it is modelled
as an association list in JSON-object order.  JSON (de)serialisation of
such a document is the identity on this model. -/

/-- `{userKey: [orderedPlayerNames]}`. -/
abbrev RankMap := List (String × List String)

/-- The empty state returned when no prior persisted state exists. -/
def defaultRankings : RankMap :=
  [("nathan", []), ("nathaniel", []), ("jack", []), ("kyle", [])]

/-- State of the local rankings file: `none` = file absent; `some none` =
present but unreadable/unparsable (the `except` path); `some (some m)` =
present and parsing to `m`. -/
abbrev LocalFile := Option (Option RankMap)

/-- `load_rankings_local()`. -/
def load_rankings_local : LocalFile → RankMap
  | none => defaultRankings
  | some none => defaultRankings
  | some (some m) => m

/-- `save_rankings_local()` on the success path: the file now holds exactly
the serialised in-memory mapping. -/
def save_rankings_local (m : RankMap) : LocalFile := some (some m)

/-- Outcome of the GitHub fetch: `none` = `repo is None`; `some none` =
`get_contents`/decode/parse raised (inner `except`); `some (some m)` = the
stored document parses to `m`. -/
abbrev GithubRepo := Option (Option RankMap)

/-- `load_rankings_from_github(repo)`: no repo falls back to the local
file; a failed fetch/parse yields the empty per-user state; otherwise the
stored mapping is returned. -/
def load_rankings_from_github (repo : GithubRepo) (localState : LocalFile) : RankMap :=
  match repo with
  | none => load_rankings_local localState
  | some none => defaultRankings
  | some (some m) => m

/-- Python `d[u]` on the rankings dict (total here; every reachable state
contains the four known keys). -/
def getUser (m : RankMap) (u : String) : List String :=
  match m.find? (fun p => p.1 = u) with
  | some p => p.2
  | none => []

/-- Python `d[u] = l`: replace in place, or append a new key. -/
def setUser : RankMap → String → List String → RankMap
  | [], u, l => [(u, l)]
  | (k, v) :: rest, u, l =>
      if k = u then (u, l) :: rest else (k, v) :: setUser rest u l

/-! ## Stable sorting (Python `list.sort` / `sorted` are stable) -/

/-- Insert `x` after every element whose key is `≤ key x` (stable
insertion). -/
def insertByKey [LinearOrder β] (key : α → β) (x : α) : List α → List α
  | [] => [x]
  | y :: ys => if key x < key y then x :: y :: ys else y :: insertByKey key x ys

/-- Stable sort by a key, processing elements left to right. -/
def stableSortBy [LinearOrder β] (key : α → β) (l : List α) : List α :=
  l.foldl (fun acc x => insertByKey key x acc) []

/-! ## "My Rankings" tab: pruning and mutations -/

/-- `available_players['PLAYER NAME'].values` for
`available_players = players_data[~players_data['drafted']]`. -/
def availableNames (df : List Row) : List String :=
  (df.filter (fun r => r.drafted = false)).map (fun r => r.player_name)

/-- `[name for name in current_rankings if name in available_players['PLAYER NAME'].values]`:
the pruning applied to a user's stored list before display/mutation. -/
def validRankings (df : List Row) (current : List String) : List String :=
  current.filter (fun name => (availableNames df).contains name)

/-- Python `l.insert(pos, x)`: positions past the end append. -/
def pyInsert (n : Nat) (x : α) : List α → List α
  | [] => [x]
  | y :: ys =>
      match n with
      | 0 => x :: y :: ys
      | m + 1 => y :: pyInsert m x ys

/-- `for k in ks: if k in l: l.remove(k)` (Python `remove` erases the first
occurrence). -/
def eraseFold (l : List String) (ks : List String) : List String :=
  ks.foldl (fun acc k => if k ∈ acc then acc.erase k else acc) l

/-- `players_to_remove`: the names whose entry in `new_positions` is `-1`. -/
def playersToRemove (changes : List (String × Option Nat)) : List String :=
  changes.filterMap (fun p => if p.2 = none then some p.1 else none)

/-- `reorder_changes`: the name/target-index pairs (`pos != -1`). -/
def reorderChanges (changes : List (String × Option Nat)) : List (String × Nat) :=
  changes.filterMap (fun p => p.2.map (fun n => (p.1, n)))

/-- The "Apply Changes" handler body: `changes` is `new_positions.items()`
(`none` = marked for removal via rank `-1`, `some n` = new 0-based index).
Removals are applied first; then, if any reorder was requested, the moved
players are deleted and re-inserted at their target indices in ascending
target order (`sorted` is stable). -/
def applyBulkChanges (changes : List (String × Option Nat))
    (current : List String) : List String :=
  if (reorderChanges changes).isEmpty then eraseFold current (playersToRemove changes)
  else
    (stableSortBy (fun q => q.2) (reorderChanges changes)).foldl
      (fun l q => pyInsert q.2 q.1 l)
      (eraseFold (eraseFold current (playersToRemove changes))
        ((reorderChanges changes).map Prod.fst))

/-- The mutating operations of the "My Rankings" tab covered by the spec:
add (append), bulk reposition/remove, clear, reverse, randomize.  The
`randomizeOrder` payload is the shuffled list produced by
`random.shuffle` (a permutation of the current list). -/
inductive MutOp where
  | addPlayer (name : String)
  | applyChanges (changes : List (String × Option Nat))
  | clearAll
  | reverseOrder
  | randomizeOrder (shuffled : List String)
deriving DecidableEq, Repr

/-- The in-memory effect of each operation on the active user's list. -/
def mutate (op : MutOp) (l : List String) : List String :=
  match op with
  | .addPlayer n => l ++ [n]
  | .applyChanges ch => applyBulkChanges ch l
  | .clearAll => []
  | .reverseOrder => l.reverse
  | .randomizeOrder sh => sh

/-- Session state relevant to persistence: the in-memory mapping
(`st.session_state.user_rankings`) and the persisted document. -/
structure Store where
  mem : RankMap
  saved : RankMap
deriving DecidableEq, Repr

/-- `save_rankings_to_github` / `save_rankings_local`: the persisted
document is overwritten with the full in-memory mapping. -/
def saveRankings (s : Store) : Store := { s with saved := s.mem }

/-- One mutation handler: update the active user's in-memory list, then
immediately save (every handler in `app.py` ends with a save call). -/
def step (u : String) (op : MutOp) (s : Store) : Store :=
  saveRankings { s with mem := setUser s.mem u (mutate op (getUser s.mem u)) }

/-! ## Team consensus -/

/-- `all_ranked_players`: the union of all users' lists.  Python's set
iteration order is unspecified; it is modelled as first-occurrence order,
which only influences the (explicitly unspecified) tie-break. -/
def allRankedNames (m : RankMap) : List String :=
  ((m.map Prod.snd).flatten).dedup

/-- `rankings.index(player_name) + 1` guarded by `player_name in rankings`. -/
def userRankOf (rankings : List String) (name : String) : Option Nat :=
  if name ∈ rankings then some (rankings.indexOf name + 1) else none

/-- One row of the consensus table.  `avgRank` keeps the exact rational
average.  (The code sorts by `float(f"{avg:.1f}")`; on averages of 1–4
integer ranks — twelfths with fractional part in {0, 3, 4, 6, 8, 9}/12 —
that formatting is strictly monotone, so sorting by the exact average
yields the identical list.) -/
structure ConsensusRow where
  player : String
  pos : String
  team : String
  avgRank : ℚ
  userRanks : List (String × Option Nat)
  rankedBy : Nat
deriving DecidableEq, Repr

/-- The per-name body of the consensus loop: look the name up in the player
table (first row wins), skip missing or drafted players, and average the
1-based positions over the users who ranked the name. -/
def consensusRowFor (df : List Row) (m : RankMap) (name : String) :
    Option ConsensusRow :=
  match df.find? (fun r => r.player_name = name) with
  | none => none
  | some r =>
      if r.drafted then none
      else
        let user_ranks := m.map (fun p => (p.1, userRankOf p.2 name))
        let rank_values := user_ranks.filterMap Prod.snd
        some { player := name, pos := r.pos, team := r.team,
               avgRank := (rank_values.sum : ℚ) / (rank_values.length : ℚ),
               userRanks := user_ranks, rankedBy := rank_values.length }

/-- The "Team Consensus" tab: one row per union name that maps to an
available player, sorted ascending by average rank (stable sort, as
`list.sort`). -/
def teamConsensus (df : List Row) (m : RankMap) : List ConsensusRow :=
  stableSortBy (fun c => c.avgRank)
    ((allRankedNames m).filterMap (consensusRowFor df m))

/-! ## Lemmas about the sorting and list helpers -/

theorem perm_insertByKey [LinearOrder β] (key : α → β) (x : α) (l : List α) :
    List.Perm (insertByKey key x l) (x :: l) := by
  induction l with
  | nil => simp [insertByKey]
  | cons y ys ih =>
      by_cases h : key x < key y
      · simp [insertByKey, h]
      · simp only [insertByKey, if_neg h]
        exact (ih.cons y).trans (List.Perm.swap x y ys)

theorem mem_insertByKey [LinearOrder β] (key : α → β) (x a : α) (l : List α) :
    a ∈ insertByKey key x l ↔ a = x ∨ a ∈ l := by
  rw [(perm_insertByKey key x l).mem_iff, List.mem_cons]

theorem pairwise_insertByKey [LinearOrder β] (key : α → β) (x : α) (l : List α)
    (h : l.Pairwise (fun a b => key a ≤ key b)) :
    (insertByKey key x l).Pairwise (fun a b => key a ≤ key b) := by
  induction l with
  | nil => simp [insertByKey]
  | cons y ys ih =>
      rw [List.pairwise_cons] at h
      by_cases hlt : key x < key y
      · simp only [insertByKey, if_pos hlt]
        refine List.pairwise_cons.mpr ⟨?_, List.pairwise_cons.mpr h⟩
        intro b hb
        rcases List.mem_cons.mp hb with rfl | hb
        · exact le_of_lt hlt
        · exact le_of_lt (lt_of_lt_of_le hlt (h.1 b hb))
      · simp only [insertByKey, if_neg hlt]
        refine List.pairwise_cons.mpr ⟨?_, ih h.2⟩
        intro b hb
        rcases (mem_insertByKey key x b ys).mp hb with rfl | hb
        · exact le_of_not_lt hlt
        · exact h.1 b hb

theorem foldl_insertByKey_perm [LinearOrder β] (key : α → β) :
    ∀ (l acc : List α),
      List.Perm (l.foldl (fun acc x => insertByKey key x acc) acc) (acc ++ l)
  | [], acc => by simp
  | x :: xs, acc => by
      simp only [List.foldl_cons]
      refine (foldl_insertByKey_perm key xs (insertByKey key x acc)).trans ?_
      refine (((perm_insertByKey key x acc).append_right xs).trans ?_)
      exact (List.perm_middle).symm

theorem stableSortBy_perm [LinearOrder β] (key : α → β) (l : List α) :
    List.Perm (stableSortBy key l) l := by
  simpa using foldl_insertByKey_perm key l []

theorem foldl_insertByKey_pairwise [LinearOrder β] (key : α → β) :
    ∀ (l acc : List α), acc.Pairwise (fun a b => key a ≤ key b) →
      (l.foldl (fun acc x => insertByKey key x acc) acc).Pairwise
        (fun a b => key a ≤ key b)
  | [], acc, h => h
  | x :: xs, acc, h => by
      simp only [List.foldl_cons]
      exact foldl_insertByKey_pairwise key xs _ (pairwise_insertByKey key x acc h)

theorem stableSortBy_pairwise [LinearOrder β] (key : α → β) (l : List α) :
    (stableSortBy key l).Pairwise (fun a b => key a ≤ key b) :=
  foldl_insertByKey_pairwise key l [] (List.Pairwise.nil)

theorem perm_pyInsert (n : Nat) (x : α) (l : List α) :
    List.Perm (pyInsert n x l) (x :: l) := by
  induction l generalizing n with
  | nil => simp [pyInsert]
  | cons y ys ih =>
      match n with
      | 0 => simp [pyInsert]
      | m + 1 =>
          simp only [pyInsert]
          exact ((ih m).cons y).trans (List.Perm.swap x y ys)

theorem mem_pyInsert (n : Nat) (x a : α) (l : List α) :
    a ∈ pyInsert n x l ↔ a = x ∨ a ∈ l := by
  rw [(perm_pyInsert n x l).mem_iff, List.mem_cons]

theorem nodup_pyInsert [DecidableEq α] (n : Nat) (x : α) (l : List α)
    (hl : l.Nodup) (hx : x ∉ l) : (pyInsert n x l).Nodup :=
  (perm_pyInsert n x l).nodup_iff.mpr (List.nodup_cons.mpr ⟨hx, hl⟩)

theorem eraseFold_nodup : ∀ (ks l : List String), l.Nodup → (eraseFold l ks).Nodup
  | [], _, h => h
  | k :: ks, l, h => by
      simp only [eraseFold, List.foldl_cons]
      by_cases hk : k ∈ l
      · simpa [eraseFold, if_pos hk] using eraseFold_nodup ks (l.erase k) (h.erase k)
      · simpa [eraseFold, if_neg hk] using eraseFold_nodup ks l h

theorem mem_of_mem_eraseFold :
    ∀ (ks l : List String) (x : String), x ∈ eraseFold l ks → x ∈ l
  | [], _, _, h => h
  | k :: ks, l, x, h => by
      simp only [eraseFold, List.foldl_cons] at h
      by_cases hk : k ∈ l
      · rw [if_pos hk] at h
        exact List.mem_of_mem_erase (mem_of_mem_eraseFold ks (l.erase k) x h)
      · rw [if_neg hk] at h
        exact mem_of_mem_eraseFold ks l x h

theorem not_mem_eraseFold :
    ∀ (ks l : List String) (x : String), l.Nodup → x ∈ ks → x ∉ eraseFold l ks
  | [], _, _, _, hx => absurd hx (List.not_mem_nil _)
  | k :: ks, l, x, hl, hx => by
      simp only [eraseFold, List.foldl_cons]
      rcases List.mem_cons.mp hx with rfl | hx
      · intro hmem
        by_cases hk : x ∈ l
        · rw [if_pos hk] at hmem
          exact hl.not_mem_erase (mem_of_mem_eraseFold ks (l.erase x) x hmem)
        · rw [if_neg hk] at hmem
          exact hk (mem_of_mem_eraseFold ks l x hmem)
      · by_cases hk : k ∈ l
        · rw [if_pos hk]
          exact not_mem_eraseFold ks (l.erase k) x (hl.erase k) hx
        · rw [if_neg hk]
          exact not_mem_eraseFold ks l x hl hx

theorem insertFold_nodup :
    ∀ (S : List (String × Nat)) (acc : List String), acc.Nodup →
      (S.map Prod.fst).Nodup → (∀ q ∈ S, q.1 ∉ acc) →
      (S.foldl (fun l q => pyInsert q.2 q.1 l) acc).Nodup
  | [], acc, hacc, _, _ => hacc
  | q :: S, acc, hacc, hkeys, hdisj => by
      simp only [List.foldl_cons]
      rw [List.map_cons, List.nodup_cons] at hkeys
      refine insertFold_nodup S _ ?_ hkeys.2 ?_
      · exact nodup_pyInsert q.2 q.1 acc hacc (hdisj q (List.mem_cons_self q S))
      · intro p hp
        rw [mem_pyInsert]
        rintro (h | h)
        · exact hkeys.1 (h ▸ List.mem_map_of_mem Prod.fst hp)
        · exact hdisj p (List.mem_cons_of_mem q hp) h

theorem reorder_keys_sublist :
    ∀ ch : List (String × Option Nat),
      List.Sublist ((reorderChanges ch).map Prod.fst) (ch.map Prod.fst)
  | [] => List.Sublist.refl []
  | p :: ch => by
      match hp : p.2 with
      | none =>
          simp only [reorderChanges, List.filterMap_cons, hp, Option.map_none',
            List.map_cons]
          exact (reorder_keys_sublist ch).cons p.1
      | some n =>
          simp only [reorderChanges, List.filterMap_cons, hp, Option.map_some',
            List.map_cons]
          exact (reorder_keys_sublist ch).cons₂ p.1

theorem applyBulkChanges_nodup (ch : List (String × Option Nat))
    (current : List String) (hkeys : (ch.map Prod.fst).Nodup)
    (hcur : current.Nodup) : (applyBulkChanges ch current).Nodup := by
  have h1 : (eraseFold current (playersToRemove ch)).Nodup :=
    eraseFold_nodup _ _ hcur
  have hreKeys : ((reorderChanges ch).map Prod.fst).Nodup :=
    (reorder_keys_sublist ch).nodup hkeys
  rw [applyBulkChanges]
  split
  · exact h1
  · have hbase :
        (eraseFold (eraseFold current (playersToRemove ch))
          ((reorderChanges ch).map Prod.fst)).Nodup :=
      eraseFold_nodup _ _ h1
    have hsortKeys :
        ((stableSortBy (fun q => q.2) (reorderChanges ch)).map Prod.fst).Nodup :=
      ((stableSortBy_perm (fun q => q.2) (reorderChanges ch)).map Prod.fst).nodup_iff.mpr
        hreKeys
    refine insertFold_nodup _ _ hbase hsortKeys ?_
    intro q hq
    have hq2 : q ∈ reorderChanges ch :=
      (stableSortBy_perm (fun q => q.2) (reorderChanges ch)).mem_iff.mp hq
    exact not_mem_eraseFold ((reorderChanges ch).map Prod.fst) _ q.1 h1
      (List.mem_map_of_mem Prod.fst hq2)

/-- Validity of a mutation as the UI guarantees it: the "➕" button exists
only for names outside the current list; `new_positions` is a dict, so its
keys are distinct; `random.shuffle` permutes the current list in place. -/
def opValidOn (l : List String) : MutOp → Prop
  | .addPlayer n => n ∉ l
  | .applyChanges ch => (ch.map Prod.fst).Nodup
  | .clearAll => True
  | .reverseOrder => True
  | .randomizeOrder sh => List.Perm sh l

/-- C9: every mutating operation on a user's ranking list preserves the
invariant that each player name occurs at most once in the list: adding is
only offered for names not already in the list, and bulk
reposition (remove then reinsert) never duplicates a name. -/
theorem mutations_preserve_nodup (op : MutOp) (l : List String)
    (hv : opValidOn l op) (hn : l.Nodup) : (mutate op l).Nodup := by
  cases op with
  | addPlayer n =>
      exact (List.perm_append_singleton n l).nodup_iff.mpr
        (List.nodup_cons.mpr ⟨hv, hn⟩)
  | applyChanges ch => exact applyBulkChanges_nodup ch l hv hn
  | clearAll => exact List.nodup_nil
  | reverseOrder => exact List.nodup_reverse.mpr hn
  | randomizeOrder sh => exact (List.Perm.nodup_iff hv).mpr hn

/-- C9 witness. -/
theorem mutations_preserve_nodup_witness :
    (mutate (MutOp.applyChanges [("B", none), ("C", some 0)]) ["A", "B", "C"]).Nodup :=
  mutations_preserve_nodup (MutOp.applyChanges [("B", none), ("C", some 0)])
    ["A", "B", "C"]
    (show (([("B", none), ("C", some 0)] : List (String × Option Nat)).map
        Prod.fst).Nodup by decide)
    (by decide)

/-- C6: every mutating operation on a user's ranking list (add, bulk
reposition/remove, clear, reverse, randomize) is immediately followed by a
save of the full user-to-list mapping, so after any such mutation the
persisted state equals the in-memory state. -/
theorem mutation_saves_full_mapping (u : String) (op : MutOp) (s : Store) :
    (step u op s).saved = (step u op s).mem := rfl

/-- C7: the ranking-store load operations are total functions of the
backend state; with no prior persisted state or an unreadable file they
return the empty list for each of the four known user keys, and a parsed
document is returned as is. -/
theorem load_rankings_contract :
    load_rankings_local none = defaultRankings ∧
    load_rankings_local (some none) = defaultRankings ∧
    (∀ m : RankMap, load_rankings_local (some (some m)) = m) ∧
    (∀ ls : LocalFile, load_rankings_from_github none ls = load_rankings_local ls) ∧
    (∀ ls : LocalFile, load_rankings_from_github (some none) ls = defaultRankings) ∧
    (∀ (m : RankMap) (ls : LocalFile), load_rankings_from_github (some (some m)) ls = m) ∧
    getUser defaultRankings "nathan" = [] ∧
    getUser defaultRankings "nathaniel" = [] ∧
    getUser defaultRankings "jack" = [] ∧
    getUser defaultRankings "kyle" = [] :=
  ⟨rfl, rfl, fun _ => rfl, fun _ => rfl, fun _ => rfl, fun _ _ => rfl,
   rfl, rfl, rfl, rfl⟩

/-- C8: saving a user-to-list mapping and immediately loading it
reproduces the mapping exactly. -/
theorem save_then_load_id : ∀ m : RankMap,
    load_rankings_local (save_rankings_local m) = m :=
  fun _ => rfl

/-! ## Reconciler theorems -/

/-- The columns of a row other than the two derived ones. -/
def frameFields (r : Row) :
    String × String × String × String × String × String × String × String ×
      String × String × String :=
  (r.rk, r.tiers, r.player_name, r.team, r.pos, r.age, r.best, r.worst,
   r.avg, r.stddev, r.ecr_vs_adp)

theorem frameFields_matchRow (sp : Directory) (dp : List String) (r : Row) :
    frameFields (matchRow sp dp r) = frameFields r := by
  rw [matchRow]
  split
  · rfl
  · split <;> rfl

/-- C10: reconciliation is a pure transformation of the player table: the
returned table has the same rows in the same order with every column other
than `drafted` and `sleeper_id` unchanged (the input list itself is a pure
value and `df.copy()` leaves the caller's table untouched). -/
theorem match_players_frame (df : List Row) (sp : Directory) (dp : List String) :
    (match_players_to_sleeper df sp dp).length = df.length ∧
    (match_players_to_sleeper df sp dp).map frameFields = df.map frameFields := by
  constructor
  · simp [match_players_to_sleeper]
  · rw [match_players_to_sleeper, List.map_map]
    exact List.map_congr_left fun r _ => frameFields_matchRow sp dp r

theorem matchRow_override (sp : Directory) (dp : List String) (r : Row)
    (hov : pyStrip r.player_name ∈ manual_drafted_players) :
    matchRow sp dp r =
      { r with drafted := true, sleeper_id := some "manual_override" } := by
  rw [matchRow, if_pos hov]

theorem matchRow_not_override (sp : Directory) (dp : List String) (r : Row)
    (hov : pyStrip r.player_name ∉ manual_drafted_players) :
    matchRow sp dp r =
      match findSleeperMatch (pyStrip r.player_name) sp with
      | some sid =>
          { r with drafted := dp.contains sid, sleeper_id := some sid }
      | none => { r with drafted := false, sleeper_id := none } := by
  rw [matchRow, if_neg hov]

/-- C5: for every ranked player whose display name is on the exact override
list, reconciliation sets `drafted = true` and `sleeper_id` to the sentinel
`"manual_override"`, whatever the directory and the drafted-id set are. -/
theorem override_always_drafted (df : List Row) (sp : Directory)
    (dp : List String) (i : Nat) (r0 : Row) (h0 : df[i]? = some r0)
    (hov : r0.player_name ∈ manual_drafted_players) :
    ∃ r, (match_players_to_sleeper df sp dp)[i]? = some r ∧
      r.drafted = true ∧ r.sleeper_id = some "manual_override" := by
  have hname : r0.player_name = "Josh Allen" := by
    simpa [manual_drafted_players] using hov
  have hs : pyStrip r0.player_name ∈ manual_drafted_players := by
    rw [hname]; decide
  refine ⟨matchRow sp dp r0, ?_, ?_, ?_⟩
  · rw [match_players_to_sleeper, List.getElem?_map, h0, Option.map_some']
  · rw [matchRow_override sp dp r0 hs]
  · rw [matchRow_override sp dp r0 hs]

/-- C5 witness. -/
theorem override_always_drafted_witness :
    ∃ r, (match_players_to_sleeper
        [{ rk := "1", tiers := "1", player_name := "Josh Allen", team := "BUF",
           pos := "QB", age := "29", best := "1", worst := "3", avg := "1.5",
           stddev := "0.5", ecr_vs_adp := "0", drafted := false,
           sleeper_id := none }] [] [])[0]? = some r ∧
      r.drafted = true ∧ r.sleeper_id = some "manual_override" :=
  override_always_drafted _ [] [] 0 _ rfl (by decide)

theorem findSleeperMatch_first (pn : String) :
    ∀ (pre : Directory) (e : String × Option SleeperPlayer) (rest : Directory),
      (∀ e2 ∈ pre, entryOptMatch pn e2 = false) → entryOptMatch pn e = true →
      findSleeperMatch pn (pre ++ e :: rest) = some e.1
  | [], e, rest, _, hm => by simp [findSleeperMatch, hm]
  | e2 :: pre, e, rest, hpre, hm => by
      have h2 : entryOptMatch pn e2 = false := hpre e2 (List.mem_cons_self e2 pre)
      simp only [List.cons_append, findSleeperMatch, h2, Bool.false_eq_true,
        if_false]
      exact findSleeperMatch_first pn pre e rest
        (fun x hx => hpre x (List.mem_cons_of_mem e2 hx)) hm

/-- C1 (amended): the override tier is checked first; the remaining three
rules are applied per directory entry in iteration order — for each entry,
exact, then alias, then suffix-normalised — and the first entry satisfying
any of the three rules supplies the assigned id (and the drafted flag). -/
theorem tier_order_per_entry (df : List Row) (pre rest : Directory)
    (dp : List String) (i : Nat) (r0 : Row) (sid : String)
    (spl : SleeperPlayer) (h0 : df[i]? = some r0)
    (hov : pyStrip r0.player_name ∉ manual_drafted_players)
    (hm : entryMatch (pyStrip r0.player_name) spl = true)
    (hpre : ∀ e ∈ pre, entryOptMatch (pyStrip r0.player_name) e = false) :
    ∃ r, (match_players_to_sleeper df (pre ++ (sid, some spl) :: rest) dp)[i]? =
        some r ∧ r.sleeper_id = some sid ∧ r.drafted = dp.contains sid := by
  have hfind : findSleeperMatch (pyStrip r0.player_name)
      (pre ++ (sid, some spl) :: rest) = some sid :=
    findSleeperMatch_first (pyStrip r0.player_name) pre (sid, some spl) rest hpre hm
  refine ⟨matchRow (pre ++ (sid, some spl) :: rest) dp r0, ?_, ?_, ?_⟩
  · rw [match_players_to_sleeper, List.getElem?_map, h0, Option.map_some']
  · rw [matchRow_not_override _ _ _ hov, hfind]
  · rw [matchRow_not_override _ _ _ hov, hfind]

/-- C1 witness. -/
theorem tier_order_per_entry_witness :
    ∃ r, (match_players_to_sleeper
        [{ rk := "2", tiers := "1", player_name := "Bob Smith Jr.",
           team := "DAL", pos := "RB", age := "24", best := "2", worst := "9",
           avg := "4.0", stddev := "1.0", ecr_vs_adp := "0", drafted := false,
           sleeper_id := none }]
        ([("0", some ⟨"Zed", "Quux"⟩)] ++ ("1", some ⟨"Bob", "Smith"⟩) :: [])
        [])[0]? = some r ∧
      r.sleeper_id = some "1" ∧ r.drafted = List.contains [] "1" :=
  tier_order_per_entry _ [("0", some ⟨"Zed", "Quux"⟩)] [] [] 0 _ "1"
    ⟨"Bob", "Smith"⟩ rfl (by decide) (by decide) (by decide)

/-- A directory on which the spec's tier ordering and the code disagree:
entry "1" matches "Bob Smith Jr." only after suffix stripping, while the
later entry "2" is an exact case-insensitive full-name match. -/
def exDirC1 : Directory :=
  [("1", some ⟨"Bob", "Smith"⟩), ("2", some ⟨"Bob", "Smith Jr."⟩)]

/-- A player table with the single ranked player "Bob Smith Jr.". -/
def exDfC1 : List Row :=
  [{ rk := "2", tiers := "1", player_name := "Bob Smith Jr.", team := "DAL",
     pos := "RB", age := "24", best := "2", worst := "9", avg := "4.0",
     stddev := "1.0", ecr_vs_adp := "0", drafted := false, sleeper_id := none }]

/-- C1 counterexample: the claimed whole-directory tier priority (tier 2 —
exact case-insensitive match — scanned over the whole directory before the
suffix tier) would assign id "2" to "Bob Smith Jr.", because entry "2" is
an exact match and entry "1" is not; the code assigns id "1", the earlier
entry that matches only via suffix stripping. -/
theorem tier_order_counterexample :
    specTieredMatch "Bob Smith Jr." exDirC1 = some "2" ∧
    (match_players_to_sleeper exDfC1 exDirC1 []).map (fun r => r.sleeper_id) =
      [some "1"] ∧
    pyLower "Bob Smith Jr." = pyLower (sleeperFullName ⟨"Bob", "Smith Jr."⟩) ∧
    pyLower "Bob Smith Jr." ≠ pyLower (sleeperFullName ⟨"Bob", "Smith"⟩) ∧
    stripSuffixes "Bob Smith Jr." = stripSuffixes (sleeperFullName ⟨"Bob", "Smith"⟩) := by
  refine ⟨by decide, by decide, by decide, by decide, by decide⟩

/-- C2 counterexample: a player previously reconciled as drafted (with a
real external id) is reset to `drafted = false`, `sleeper_id = None` by a
refresh in which both external fetches fail — the prior in-memory flags are
not retained. -/
theorem refresh_failure_counterexample :
    (refreshDraftData
        (some [{ rk := "1", tiers := "1", player_name := "Alice A",
                 team := "KC", pos := "WR", age := "25", best := "1",
                 worst := "4", avg := "2.0", stddev := "0.7",
                 ecr_vs_adp := "0", drafted := true,
                 sleeper_id := some "9" }]) none none).map
      (List.map (fun r => (r.drafted, r.sleeper_id))) =
        some [(false, (none : Option String))] := by
  decide

/-- C2 (amended): when the directory fetch or the drafted-id fetch fails,
the failing fetch is replaced by empty data (`{}` / `[]`) and the
reconciler is still invoked with those inputs, overwriting rather than
retaining the prior `drafted`/`sleeper_id` values: every ranked player not
on the override list ends with `drafted = false`, and with `sleeper_id`
equal to the (possibly null) match result over the fetched directory — in
particular `None` whenever the directory fetch is the one that failed. -/
theorem refresh_failure_reinvokes (df : List Row) (dirResp : Option Directory)
    (picksResp : Option (List (Option String))) (i : Nat) (r0 : Row)
    (h0 : df[i]? = some r0)
    (hov : pyStrip r0.player_name ∉ manual_drafted_players)
    (hfail : dirResp = none ∨ picksResp = none) :
    refreshDraftData (some df) dirResp picksResp =
      some (match_players_to_sleeper df (load_sleeper_players dirResp)
        (draftedIdsOf (get_draft_picks picksResp))) ∧
    ∃ r, (match_players_to_sleeper df (load_sleeper_players dirResp)
        (draftedIdsOf (get_draft_picks picksResp)))[i]? = some r ∧
      r.drafted = false ∧
      r.sleeper_id =
        findSleeperMatch (pyStrip r0.player_name) (load_sleeper_players dirResp) ∧
      (dirResp = none → r.sleeper_id = none) := by
  refine ⟨rfl, matchRow (load_sleeper_players dirResp)
    (draftedIdsOf (get_draft_picks picksResp)) r0, ?_, ?_, ?_, ?_⟩
  · rw [match_players_to_sleeper, List.getElem?_map, h0, Option.map_some']
  · rcases hfail with rfl | rfl
    · rw [matchRow_not_override _ _ _ hov]
      rfl
    · rw [matchRow_not_override _ _ _ hov]
      cases hm : findSleeperMatch (pyStrip r0.player_name)
          (load_sleeper_players dirResp) with
      | none => rfl
      | some sid => rfl
  · rw [matchRow_not_override _ _ _ hov]
    cases hm : findSleeperMatch (pyStrip r0.player_name)
        (load_sleeper_players dirResp) with
    | none => rfl
    | some sid => rfl
  · rintro rfl
    rw [matchRow_not_override _ _ _ hov]
    rfl

/-- C2 witness, exercising the sub-case where only the drafted-id fetch
fails: the previously drafted row (flag `true`, id `"9"`) is re-matched
against the successfully fetched directory, ending `drafted = false` with
the real directory id. -/
theorem refresh_failure_reinvokes_witness :
    refreshDraftData
        (some [{ rk := "1", tiers := "1", player_name := "Alice A",
                 team := "KC", pos := "WR", age := "25", best := "1",
                 worst := "4", avg := "2.0", stddev := "0.7",
                 ecr_vs_adp := "0", drafted := true,
                 sleeper_id := some "9" }])
        (some [("7", some ⟨"Alice", "A"⟩)]) none =
      some (match_players_to_sleeper
        [{ rk := "1", tiers := "1", player_name := "Alice A", team := "KC",
           pos := "WR", age := "25", best := "1", worst := "4", avg := "2.0",
           stddev := "0.7", ecr_vs_adp := "0", drafted := true,
           sleeper_id := some "9" }]
        (load_sleeper_players (some [("7", some ⟨"Alice", "A"⟩)]))
        (draftedIdsOf (get_draft_picks none))) ∧
    ∃ r, (match_players_to_sleeper
        [{ rk := "1", tiers := "1", player_name := "Alice A", team := "KC",
           pos := "WR", age := "25", best := "1", worst := "4", avg := "2.0",
           stddev := "0.7", ecr_vs_adp := "0", drafted := true,
           sleeper_id := some "9" }]
        (load_sleeper_players (some [("7", some ⟨"Alice", "A"⟩)]))
        (draftedIdsOf (get_draft_picks none)))[0]? = some r ∧
      r.drafted = false ∧
      r.sleeper_id = findSleeperMatch (pyStrip "Alice A")
        (load_sleeper_players (some [("7", some ⟨"Alice", "A"⟩)])) ∧
      ((some [("7", some ⟨"Alice", "A"⟩)] : Option Directory) = none →
        r.sleeper_id = none) :=
  refresh_failure_reinvokes _ (some [("7", some ⟨"Alice", "A"⟩)]) none 0 _
    rfl (by decide) (Or.inr rfl)

/-! ## Consensus theorems -/

theorem mem_allRankedNames (m : RankMap) (name : String) :
    name ∈ allRankedNames m ↔ ∃ p ∈ m, name ∈ p.2 := by
  simp only [allRankedNames, List.mem_dedup, List.mem_flatten, List.mem_map]
  constructor
  · rintro ⟨l, ⟨p, hp, rfl⟩, hn⟩
    exact ⟨p, hp, hn⟩
  · rintro ⟨p, hp, hn⟩
    exact ⟨p.2, ⟨p, hp, rfl⟩, hn⟩

theorem rank_values_eq (m : RankMap) (name : String) :
    (m.map (fun p => (p.1, userRankOf p.2 name))).filterMap Prod.snd =
      m.filterMap (fun p => userRankOf p.2 name) := by
  rw [List.filterMap_map]
  rfl

theorem rank_values_ne_nil (m : RankMap) (name : String)
    (h : ∃ p ∈ m, name ∈ p.2) :
    m.filterMap (fun p => userRankOf p.2 name) ≠ [] := by
  obtain ⟨p, hp, hn⟩ := h
  have hmem : p.2.indexOf name + 1 ∈ m.filterMap (fun p => userRankOf p.2 name) :=
    List.mem_filterMap.mpr ⟨p, hp, by simp [userRankOf, hn]⟩
  exact List.ne_nil_of_mem hmem

theorem consensusRowFor_inv (df : List Row) (m : RankMap) (a : String)
    (c : ConsensusRow) (h : consensusRowFor df m a = some c) :
    c.player = a ∧
    (∃ r, df.find? (fun r2 => r2.player_name = a) = some r ∧ r.drafted = false) ∧
    c.avgRank = ((m.filterMap (fun p => userRankOf p.2 a)).sum : ℚ) /
      ((m.filterMap (fun p => userRankOf p.2 a)).length : ℚ) := by
  rw [consensusRowFor] at h
  split at h
  · exact Option.noConfusion h
  · rename_i r hfind
    split at h
    · exact Option.noConfusion h
    · rename_i hd
      obtain rfl := Option.some.inj h
      refine ⟨rfl, ⟨r, hfind, by simpa using hd⟩, ?_⟩
      dsimp only
      rw [rank_values_eq]

theorem consensusRowFor_isSome (df : List Row) (m : RankMap) (name : String)
    (r : Row) (hfind : df.find? (fun r2 => r2.player_name = name) = some r)
    (hdr : r.drafted = false) :
    ∃ c, consensusRowFor df m name = some c ∧ c.player = name := by
  rw [consensusRowFor, hfind]
  dsimp only
  rw [if_neg (by simp [hdr])]
  exact ⟨_, rfl, rfl⟩

theorem mem_teamConsensus_iff (df : List Row) (m : RankMap) (c : ConsensusRow) :
    c ∈ teamConsensus df m ↔
      c ∈ (allRankedNames m).filterMap (consensusRowFor df m) :=
  (stableSortBy_perm (fun c : ConsensusRow => c.avgRank)
    ((allRankedNames m).filterMap (consensusRowFor df m))).mem_iff

/-- C3: the consensus table contains exactly the names, from the union of
all users' lists, that resolve to a non-drafted player row; each row's
average is the mean of (0-based index + 1) over only the users who ranked
that name (the contributing-rank list is never empty); and the table is
sorted ascending by this average. -/
theorem consensus_correct (df : List Row) (m : RankMap) :
    (∀ name : String,
        (∃ c ∈ teamConsensus df m, c.player = name) ↔
          ((∃ p ∈ m, name ∈ p.2) ∧
            ∃ r ∈ df, df.find? (fun r2 => r2.player_name = name) = some r ∧
              r.drafted = false)) ∧
    (∀ c ∈ teamConsensus df m,
        c.avgRank = ((m.filterMap (fun p => userRankOf p.2 c.player)).sum : ℚ) /
            ((m.filterMap (fun p => userRankOf p.2 c.player)).length : ℚ) ∧
        m.filterMap (fun p => userRankOf p.2 c.player) ≠ []) ∧
    (teamConsensus df m).Pairwise (fun a b => a.avgRank ≤ b.avgRank) := by
  refine ⟨?_, ?_, ?_⟩
  · intro name
    constructor
    · rintro ⟨c, hc, rfl⟩
      have hc2 : c ∈ (allRankedNames m).filterMap (consensusRowFor df m) :=
        (mem_teamConsensus_iff df m c).mp hc
      obtain ⟨a, ha, hsome⟩ := List.mem_filterMap.mp hc2
      obtain ⟨hpl, ⟨r, hfind, hdr⟩, _⟩ := consensusRowFor_inv df m a c hsome
      rw [hpl]
      exact ⟨(mem_allRankedNames m a).mp ha,
        r, List.mem_of_find?_eq_some hfind, hfind, hdr⟩
    · rintro ⟨hun, r, _, hfind, hdr⟩
      obtain ⟨c, hc, hpl⟩ := consensusRowFor_isSome df m name r hfind hdr
      refine ⟨c, ?_, hpl⟩
      exact (mem_teamConsensus_iff df m c).mpr
        (List.mem_filterMap.mpr ⟨name, (mem_allRankedNames m name).mpr hun, hc⟩)
  · intro c hc
    have hc2 : c ∈ (allRankedNames m).filterMap (consensusRowFor df m) :=
      (mem_teamConsensus_iff df m c).mp hc
    obtain ⟨a, ha, hsome⟩ := List.mem_filterMap.mp hc2
    obtain ⟨hpl, _, havg⟩ := consensusRowFor_inv df m a c hsome
    rw [hpl]
    exact ⟨havg, rank_values_ne_nil m a ((mem_allRankedNames m a).mp ha)⟩
  · exact stableSortBy_pairwise (fun c : ConsensusRow => c.avgRank)
      ((allRankedNames m).filterMap (consensusRowFor df m))

/-- C3 witness: with nathan ranking `[X, Y]`, nathaniel `[Y, X]` and both
players available, `X` appears in the consensus table. -/
theorem consensus_correct_witness :
    ∃ c ∈ teamConsensus
        [{ rk := "1", tiers := "1", player_name := "X", team := "KC",
           pos := "WR", age := "25", best := "1", worst := "4", avg := "2.0",
           stddev := "0.7", ecr_vs_adp := "0", drafted := false,
           sleeper_id := none },
         { rk := "2", tiers := "1", player_name := "Y", team := "SF",
           pos := "RB", age := "23", best := "2", worst := "6", avg := "3.0",
           stddev := "0.9", ecr_vs_adp := "0", drafted := false,
           sleeper_id := none }]
        [("nathan", ["X", "Y"]), ("nathaniel", ["Y", "X"]),
         ("jack", []), ("kyle", [])],
      c.player = "X" :=
  ((consensus_correct _ _).1 "X").mpr (by decide)

/-- C4: after a draft refresh marks player `X` drafted (every row named `X`
is flagged), `X` is absent from the displayed (pruned) ranking list of
every user and from every consensus row, even when `X` is still present in
the stored list. -/
theorem drafted_player_pruned (df : List Row) (sp : Directory)
    (dp : List String) (X : String) (current : List String) (m : RankMap)
    (hX : ∀ r ∈ match_players_to_sleeper df sp dp,
        r.player_name = X → r.drafted = true) :
    X ∉ validRankings (match_players_to_sleeper df sp dp) current ∧
    ∀ c ∈ teamConsensus (match_players_to_sleeper df sp dp) m,
      c.player ≠ X := by
  constructor
  · intro hmem
    rw [validRankings, List.mem_filter] at hmem
    have hc : X ∈ availableNames (match_players_to_sleeper df sp dp) := by
      simpa using hmem.2
    rw [availableNames] at hc
    obtain ⟨r, hr, hname⟩ := List.mem_map.mp hc
    rw [List.mem_filter] at hr
    have hdr : r.drafted = true := hX r hr.1 hname
    have hdf : r.drafted = false := by simpa using hr.2
    rw [hdr] at hdf
    exact Bool.noConfusion hdf
  · intro c hc hcx
    have hc2 : c ∈ (allRankedNames m).filterMap
        (consensusRowFor (match_players_to_sleeper df sp dp) m) :=
      (mem_teamConsensus_iff (match_players_to_sleeper df sp dp) m c).mp hc
    obtain ⟨a, _, hsome⟩ := List.mem_filterMap.mp hc2
    obtain ⟨hpl, ⟨r, hfind, hdr⟩, _⟩ :=
      consensusRowFor_inv (match_players_to_sleeper df sp dp) m a c hsome
    have hrname : r.player_name = a := by
      simpa using List.find?_some hfind
    have hdrafted : r.drafted = true := by
      refine hX r (List.mem_of_find?_eq_some hfind) ?_
      rw [hrname, ← hpl, hcx]
    rw [hdrafted] at hdr
    exact Bool.noConfusion hdr

/-- C4 witness: "Josh Allen" is override-drafted by any refresh, and then
appears neither in the pruned display list nor in the consensus table. -/
theorem drafted_player_pruned_witness :
    "Josh Allen" ∉ validRankings
        (match_players_to_sleeper
          [{ rk := "1", tiers := "1", player_name := "Josh Allen",
             team := "BUF", pos := "QB", age := "29", best := "1",
             worst := "3", avg := "1.5", stddev := "0.5", ecr_vs_adp := "0",
             drafted := false, sleeper_id := none }] [] []) ["Josh Allen"] ∧
    ∀ c ∈ teamConsensus
        (match_players_to_sleeper
          [{ rk := "1", tiers := "1", player_name := "Josh Allen",
             team := "BUF", pos := "QB", age := "29", best := "1",
             worst := "3", avg := "1.5", stddev := "0.5", ecr_vs_adp := "0",
             drafted := false, sleeper_id := none }] [] [])
        [("nathan", ["Josh Allen"]), ("nathaniel", []), ("jack", []),
         ("kyle", [])],
      c.player ≠ "Josh Allen" :=
  drafted_player_pruned _ [] [] "Josh Allen" ["Josh Allen"]
    [("nathan", ["Josh Allen"]), ("nathaniel", []), ("jack", []), ("kyle", [])]
    (by decide)
